import Mathlib

/-!
# Verification of the ICE visualizer scene/particle model

A shallow embedding of the state and operations of `src/app.js`, an
interactive Three.js visualization.  JavaScript floating-point arithmetic is
idealized as exact real arithmetic (`ℝ`); `Math.sqrt`, `Math.sin`, `Math.cos`,
`Math.acos`, `Math.atan2` become their real counterparts.  `Math.random()` is
modelled as an explicit stream `rand : ℕ → ℝ` together with a counter that
advances in the exact order the source calls `Math.random()`.  Mutable arrays
of scene objects become Lean lists of values; `Float32Array` particle buffers
become functions `ℕ → Vec3 ℝ` indexed by particle number (JS offset `i3 = 3*i`
collapses to the particle index).  In-place loops become folds that update one
index per iteration.
-/

namespace IceViz

/-- A 3-component vector, the embedding of `THREE.Vector3` and of one
3-slot group of a `Float32Array` buffer. -/
structure Vec3 (R : Type) where
  x : R
  y : R
  z : R
  deriving DecidableEq, Repr

instance {R : Type} [Add R] : Add (Vec3 R) :=
  ⟨fun a b => ⟨a.x + b.x, a.y + b.y, a.z + b.z⟩⟩

instance {R : Type} [Sub R] : Sub (Vec3 R) :=
  ⟨fun a b => ⟨a.x - b.x, a.y - b.y, a.z - b.z⟩⟩

instance {R : Type} [Mul R] : SMul R (Vec3 R) :=
  ⟨fun c a => ⟨c * a.x, c * a.y, c * a.z⟩⟩

instance {R : Type} [Zero R] : Zero (Vec3 R) :=
  ⟨⟨0, 0, 0⟩⟩

/-- `v.length()` / `Math.sqrt(x*x + y*y + z*z)` on a 3-vector. -/
noncomputable def vlen (v : Vec3 ℝ) : ℝ :=
  Real.sqrt (v.x * v.x + v.y * v.y + v.z * v.z)

/-- `a.distanceTo(b)` for `THREE.Vector3`. -/
noncomputable def vdist (a b : Vec3 ℝ) : ℝ := vlen (b - a)

/-!
## Connection records

A connection line stores its endpoints' node indices in `userData`:
`{ nodeIndex: i, toCore: true }` for a node-to-core line (`createConnections`,
app.js:329) and `{ nodeIndex1: i, nodeIndex2: j }` for a node-to-node line
(app.js:344, app.js:1047).  The two shapes become two constructors.
-/

/-- The `userData` index record of a connection line. -/
inductive Conn : Type where
  | toCore (nodeIndex : ℕ)
  | between (nodeIndex1 nodeIndex2 : ℕ)
  deriving DecidableEq, Repr

/-- The test `data.nodeIndex === nodeIndex || data.nodeIndex1 === nodeIndex ||
data.nodeIndex2 === nodeIndex` from `deleteNode` (app.js:1174-1176); fields a
record does not have compare unequal to any number in JS. -/
def Conn.incident (c : Conn) (i : ℕ) : Bool :=
  match c with
  | .toCore k => k == i
  | .between k l => k == i || l == i

/-- `if (index > nodeIndex) index--`, the per-field decrement of
`deleteNode`'s index-shifting pass (app.js:1189-1194). -/
def shiftIdx (removed k : ℕ) : ℕ :=
  if removed < k then k - 1 else k

/-- The index-shifting pass of `deleteNode` (app.js:1189-1194):
each stored index strictly greater than the removed index is decremented;
increments/decrements on absent (`undefined`) fields never fire because
`undefined > n` is false in JS. -/
def Conn.shiftDown (c : Conn) (i : ℕ) : Conn :=
  match c with
  | .toCore k => .toCore (shiftIdx i k)
  | .between k l => .between (shiftIdx i k) (shiftIdx i l)

/-- The stored node indices of a connection. -/
def Conn.refs (c : Conn) : List ℕ :=
  match c with
  | .toCore k => [k]
  | .between k l => [k, l]

/-- All stored indices are in bounds for a node array of length `n`. -/
def Conn.valid (c : Conn) (n : ℕ) : Bool :=
  match c with
  | .toCore k => k < n
  | .between k l => k < n && l < n

/-- An object added to the Three.js scene graph, as far as the node/connection
bookkeeping is concerned. -/
inductive SceneItem (α : Type) : Type where
  | node (a : α)
  | conn (c : Conn)
  deriving DecidableEq

/-- The mutable globals `nodes`, `connections` and the scene children that
`deleteNode` touches.  Node objects are kept abstract (`α` with decidable
equality); `nodes.indexOf(node)` compares object identity, which value
equality models faithfully as long as the node objects are distinct. -/
structure GraphState (α : Type) where
  nodes : List α
  connections : List Conn
  scene : List (SceneItem α)
  deriving DecidableEq

/-- `deleteNode(node)` (app.js:1167-1197): look the node up with `indexOf`
(early return on `-1`); filter out the incident connections, splicing each out
of `connections` and removing it from the scene; splice the node out of
`nodes`; then decrement every remaining stored index above the removed one. -/
def deleteNode {α : Type} [DecidableEq α] (st : GraphState α) (node : α) :
    GraphState α :=
  if node ∈ st.nodes then
    let nodeIndex := st.nodes.indexOf node
    let connectionsToRemove := st.connections.filter (·.incident nodeIndex)
    let remaining := st.connections.filter (fun c => !(c.incident nodeIndex))
    let scene1 := connectionsToRemove.foldl
      (fun s c => s.erase (SceneItem.conn c)) st.scene
    { nodes := st.nodes.eraseIdx nodeIndex
      connections := remaining.map (Conn.shiftDown · nodeIndex)
      scene := scene1.erase (SceneItem.node node) }
  else
    st

/-- A concrete `GraphState` used to exercise `deleteNode`: three nodes
(identified as `10`, `20`, `30`) and four connections of both kinds. -/
def st20 : GraphState ℕ :=
  { nodes := [10, 20, 30]
    connections := [.toCore 0, .between 0 2, .between 1 2, .toCore 1]
    scene := [.node 10, .node 20, .node 30, .conn (.toCore 0),
      .conn (.between 0 2), .conn (.between 1 2), .conn (.toCore 1)] }

/-!
## Data pulses

`spawnDataPulse` (app.js:1200-1241) stores `{ start, end, progress: 0, speed }`
in a pulse mesh's `userData` and adds the mesh to the scene and to `dataPulses`;
`animateDataPulses` (app.js:1243-1270) advances each pulse and removes the
finished ones.  Pulse geometry uses only `+`, `-`, `*`, so positions are
embedded over `ℚ` to keep the model executable.  Pulse meshes are distinct
JS objects; the model gives each a numeric `id` and represents the scene's
pulse children by their ids.
-/

/-- A data pulse: the mesh position/opacities together with its `userData`
fields `start`, `end`, `progress`, `speed` (app.js:1222-1227).  `glowOpacity`
is the opacity of the single glow child (`pulse.children[0]`). -/
structure Pulse where
  id : ℕ
  startP : Vec3 ℚ
  endP : Vec3 ℚ
  position : Vec3 ℚ
  progress : ℚ
  speed : ℚ
  opacity : ℚ
  glowOpacity : ℚ
  deriving DecidableEq, Repr

/-- `pos.lerpVectors(a, b, t)` of `THREE.Vector3`: `a + t * (b - a)`. -/
def lerpVectors (a b : Vec3 ℚ) (t : ℚ) : Vec3 ℚ :=
  a + t • (b - a)

/-- The fade-out near the end of a pulse run (app.js:1257):
`t < 0.7 ? 0.9 : 0.9 * (1 - (t - 0.7) / 0.3)`. -/
def pulseFade (t : ℚ) : ℚ :=
  if t < 0.7 then 0.9 else 0.9 * (1 - (t - 0.7) / 0.3)

/-- The per-pulse body of the `dataPulses.forEach` in `animateDataPulses`
(app.js:1246-1263): advance `progress`; a finished pulse (`progress >= 1`) is
only marked for removal, otherwise position and opacities are updated. -/
def stepPulse (p : Pulse) : Pulse :=
  let progress := p.progress + p.speed
  if 1 ≤ progress then
    { p with progress := progress }
  else
    { p with
      progress := progress
      position := lerpVectors p.startP p.endP progress
      opacity := pulseFade progress
      glowOpacity := pulseFade progress * 0.3 }

/-- `animateDataPulses` (app.js:1243-1270): run the per-pulse step, collect
the pulses whose progress reached 1 into `toRemove`, then remove each of them
from the scene (`scene.remove`) and splice it out of `dataPulses`
(`splice(indexOf(pulse), 1)`, modelled by `List.erase`, which also drops the
first matching occurrence). -/
def animateDataPulses (scene : List ℕ) (pulses : List Pulse) :
    List ℕ × List Pulse :=
  let stepped := pulses.map stepPulse
  let toRemove := stepped.filter (fun p => decide (1 ≤ p.progress))
  (toRemove.foldl (fun s p => s.erase p.id) scene,
   toRemove.foldl (fun l p => l.erase p) stepped)

/-!
## Particle physics (`animateParticles`, `applyMouseGravity`)

`animateParticles` (app.js:489-646) mutates the `position` (and, when
present, `velocity`) `Float32Array`s of the particle system in place, one
particle per loop iteration.  The buffers become functions `ℕ → Vec3 ℝ`; a
frame becomes a fold over `List.range n` whose state is the buffer(s)
together with the `Math.random()` counter.  Real-number comparisons use
classical decidability; the source compares IEEE doubles.
-/

open scoped Classical

/-- `velocities ? velocities[i + 1] : -0.03`, the per-particle fall delta of
the matrix branch (app.js:500). -/
def matrixFall (velocities : Option (ℕ → Vec3 ℝ)) (i : ℕ) : ℝ :=
  match velocities with
  | some v => (v i).y
  | none => -0.03

/-- One iteration of the matrix-rain loop (app.js:499-507) for particle `i`:
add the fall delta to `y`; if the new `y` is below `-10`, reset `y` to `15`
and draw fresh `x` and `z` with two `Math.random()` calls (in that order),
each mapped through `(r - 0.5) * 20`.  The fold state is the position buffer
and the random counter. -/
noncomputable def matrixStep (velocities : Option (ℕ → Vec3 ℝ))
    (rand : ℕ → ℝ) (s : (ℕ → Vec3 ℝ) × ℕ) (i : ℕ) : (ℕ → Vec3 ℝ) × ℕ :=
  let p := s.1 i
  let newY := p.y + matrixFall velocities i
  if newY < -10 then
    (Function.update s.1 i
      ⟨(rand s.2 - 0.5) * 20, 15, (rand (s.2 + 1) - 0.5) * 20⟩, s.2 + 2)
  else
    (Function.update s.1 i ⟨p.x, newY, p.z⟩, s.2)

/-- The whole matrix-rain frame: the loop
`for (let i = 0; i < positions.length; i += 3)` over all `n` particles. -/
noncomputable def matrixFrame (n : ℕ) (velocities : Option (ℕ → Vec3 ℝ))
    (positions : ℕ → Vec3 ℝ) (rand : ℕ → ℝ) (c0 : ℕ) : (ℕ → Vec3 ℝ) × ℕ :=
  (List.range n).foldl (matrixStep velocities rand) (positions, c0)

/-- One iteration of the storm loop (app.js:513-531) for particle `i` (the
storm preset always creates a `velocity` attribute, so the `if (velocities)`
guard is taken): advance the position by the velocity; if the updated
position's distance from the origin exceeds 15, multiply every velocity
component by `-0.8`; then add `(Math.random() - 0.5) * 0.001` turbulence to
each velocity component (three `Math.random()` calls, x, y, z order). -/
noncomputable def stormStep (rand : ℕ → ℝ)
    (s : (ℕ → Vec3 ℝ × Vec3 ℝ) × ℕ) (i : ℕ) : (ℕ → Vec3 ℝ × Vec3 ℝ) × ℕ :=
  let p := (s.1 i).1
  let v := (s.1 i).2
  let p1 := p + v
  let radius := vlen p1
  let v1 := if 15 < radius then (-0.8 : ℝ) • v else v
  let v2 := v1 + ⟨(rand s.2 - 0.5) * 0.001, (rand (s.2 + 1) - 0.5) * 0.001,
    (rand (s.2 + 2) - 0.5) * 0.001⟩
  (Function.update s.1 i (p1, v2), s.2 + 3)

/-- The whole storm frame over all `n` particles (the trailing
`particleSystem.rotation.y` drift touches the group transform, not the
buffers, and is not modelled). -/
noncomputable def stormFrame (n : ℕ) (positions velocities : ℕ → Vec3 ℝ)
    (rand : ℕ → ℝ) (c0 : ℕ) : (ℕ → Vec3 ℝ × Vec3 ℝ) × ℕ :=
  (List.range n).foldl (stormStep rand) ((fun j => (positions j, velocities j)), c0)

/-- `perceptionRadius` (app.js:541). -/
def perceptionRadius : ℝ := 3

/-- `separationDist` (app.js:542). -/
def separationDist : ℝ := 1

/-- `maxSpeed` (app.js:543). -/
def maxSpeed : ℝ := 0.03

/-- `maxForce` (app.js:544). -/
def maxForce : ℝ := 0.001

/-- The `dist` computed in the swarm neighbor loop (app.js:562-565):
the Euclidean distance between particles `i` and `j`. -/
noncomputable def pdist (pos : ℕ → Vec3 ℝ) (i j : ℕ) : ℝ :=
  Real.sqrt (((pos j).x - (pos i).x) * ((pos j).x - (pos i).x) +
    ((pos j).y - (pos i).y) * ((pos j).y - (pos i).y) +
    ((pos j).z - (pos i).z) * ((pos j).z - (pos i).z))

/-- The accumulator of the swarm neighbor loop (app.js:554-556): separation,
alignment and cohesion sums with their neighbor counts. -/
structure FlockAcc where
  sepX : ℝ
  sepY : ℝ
  sepZ : ℝ
  sepCount : ℕ
  alignX : ℝ
  alignY : ℝ
  alignZ : ℝ
  alignCount : ℕ
  cohX : ℝ
  cohY : ℝ
  cohZ : ℝ
  cohCount : ℕ

/-- One iteration `j` of the swarm neighbor loop (app.js:559-586): skip
`i === j`; inside the perception gate `dist < perceptionRadius && dist > 0`
accumulate alignment and cohesion, and additionally separation when
`dist < separationDist`. -/
noncomputable def flockStep (pos vel : ℕ → Vec3 ℝ) (i : ℕ)
    (acc : FlockAcc) (j : ℕ) : FlockAcc :=
  if i = j then acc
  else
    let dx := (pos j).x - (pos i).x
    let dy := (pos j).y - (pos i).y
    let dz := (pos j).z - (pos i).z
    let dist := pdist pos i j
    if dist < perceptionRadius ∧ 0 < dist then
      let acc1 :=
        if dist < separationDist then
          { acc with
            sepX := acc.sepX - dx / dist
            sepY := acc.sepY - dy / dist
            sepZ := acc.sepZ - dz / dist
            sepCount := acc.sepCount + 1 }
        else acc
      { acc1 with
        alignX := acc1.alignX + (vel j).x
        alignY := acc1.alignY + (vel j).y
        alignZ := acc1.alignZ + (vel j).z
        alignCount := acc1.alignCount + 1
        cohX := acc1.cohX + (pos j).x
        cohY := acc1.cohY + (pos j).y
        cohZ := acc1.cohZ + (pos j).z
        cohCount := acc1.cohCount + 1 }
    else acc

/-- The full neighbor scan for particle `i`: the inner
`for (let j = 0; j < positions.length; j += 3)` loop. -/
noncomputable def flockAccOf (pos vel : ℕ → Vec3 ℝ) (n i : ℕ) : FlockAcc :=
  (List.range n).foldl (flockStep pos vel i) ⟨0, 0, 0, 0, 0, 0, 0, 0, 0, 0, 0, 0⟩

/-- The speed limit (app.js:616-622): a velocity whose magnitude exceeds
`maxSpeed` is rescaled componentwise by `maxSpeed / speed`. -/
noncomputable def limitSpeed (v : Vec3 ℝ) : Vec3 ℝ :=
  let speed := vlen v
  if maxSpeed < speed then
    ⟨v.x / speed * maxSpeed, v.y / speed * maxSpeed, v.z / speed * maxSpeed⟩
  else v

/-- One iteration of the outer swarm loop (app.js:546-631) for particle `i`:
run the neighbor scan, apply separation, alignment, cohesion (each guarded by
a positive neighbor count), the soft boundary steer beyond radius 18, clamp
the speed, then write the velocity and advance the position by it.  Later
iterations read the buffers this one wrote, exactly as the in-place JS loop
does. -/
noncomputable def swarmStep (n : ℕ) (s : (ℕ → Vec3 ℝ × Vec3 ℝ) × Unit)
    (i : ℕ) : (ℕ → Vec3 ℝ × Vec3 ℝ) × Unit :=
  let pos := fun j => (s.1 j).1
  let vel := fun j => (s.1 j).2
  let p := pos i
  let acc := flockAccOf pos vel n i
  let v0 := vel i
  let v1 :=
    if 0 < acc.sepCount then
      v0 + ⟨acc.sepX / (acc.sepCount : ℝ) * maxForce * 2,
        acc.sepY / (acc.sepCount : ℝ) * maxForce * 2,
        acc.sepZ / (acc.sepCount : ℝ) * maxForce * 2⟩
    else v0
  let v2 :=
    if 0 < acc.alignCount then
      ⟨v1.x + (acc.alignX / (acc.alignCount : ℝ) - v1.x) * maxForce,
       v1.y + (acc.alignY / (acc.alignCount : ℝ) - v1.y) * maxForce,
       v1.z + (acc.alignZ / (acc.alignCount : ℝ) - v1.z) * maxForce⟩
    else v1
  let v3 :=
    if 0 < acc.cohCount then
      v2 + ⟨(acc.cohX / (acc.cohCount : ℝ) - p.x) * maxForce * 0.5,
        (acc.cohY / (acc.cohCount : ℝ) - p.y) * maxForce * 0.5,
        (acc.cohZ / (acc.cohCount : ℝ) - p.z) * maxForce * 0.5⟩
    else v2
  let v4 :=
    if 18 < vlen p then
      v3 - ⟨p.x * 0.0003, p.y * 0.0003, p.z * 0.0003⟩
    else v3
  let v5 := limitSpeed v4
  (Function.update s.1 i (p + v5, v5), ())

/-- The whole swarm frame: the outer loop over all `n` boids. -/
noncomputable def swarmFrame (n : ℕ) (positions velocities : ℕ → Vec3 ℝ) :
    ℕ → Vec3 ℝ × Vec3 ℝ :=
  ((List.range n).foldl (swarmStep n)
    ((fun j => (positions j, velocities j)), ())).1

/-- Modelled after the claim's wording (C3, amended): the particles a
separation force is computed from — every other particle at distance
greater than 0 and less than `separationDist`. -/
noncomputable def sepNeighbors (pos : ℕ → Vec3 ℝ) (n i : ℕ) : List ℕ :=
  (List.range n).filter
    (fun j => decide (j ≠ i ∧ 0 < pdist pos i j ∧ pdist pos i j < separationDist))

/-- Modelled after the claim's wording (C3): the particles the alignment and
cohesion averages are computed from — every other particle at distance
greater than 0 and less than `perceptionRadius`. -/
noncomputable def perceptionNeighbors (pos : ℕ → Vec3 ℝ) (n i : ℕ) : List ℕ :=
  (List.range n).filter
    (fun j => decide (j ≠ i ∧ 0 < pdist pos i j ∧ pdist pos i j < perceptionRadius))

/-- The branch condition under which the swarm loop body accumulates a
separation contribution from neighbor `j` (app.js:560-573): not the particle
itself, inside the perception gate, and closer than `separationDist`. -/
noncomputable def codeSepGate (pos : ℕ → Vec3 ℝ) (i j : ℕ) : Bool :=
  decide (¬ i = j ∧ (pdist pos i j < perceptionRadius ∧ 0 < pdist pos i j) ∧
    pdist pos i j < separationDist)

/-- The branch condition under which the swarm loop body accumulates
alignment and cohesion contributions from neighbor `j` (app.js:560-567). -/
noncomputable def codePerceptionGate (pos : ℕ → Vec3 ℝ) (i j : ℕ) : Bool :=
  decide (¬ i = j ∧ pdist pos i j < perceptionRadius ∧ 0 < pdist pos i j)

/-- `mouseGravityStrength` (app.js:103). -/
def mouseGravityStrength : ℝ := 0.5

/-- `applyMouseGravity` (app.js:1129-1149): each particle strictly between
distance 0.1 and 5 from the cursor's world position is pulled toward it by
`(mouseWorld - p) * (mouseGravityStrength * 0.01 / dist²)`; the loop body
touches one particle at a time and reads only that particle, so the frame is
a pointwise map. -/
noncomputable def applyMouseGravity (mouseWorld : Vec3 ℝ)
    (positions : ℕ → Vec3 ℝ) : ℕ → Vec3 ℝ := fun i =>
  let p := positions i
  let dx := mouseWorld.x - p.x
  let dy := mouseWorld.y - p.y
  let dz := mouseWorld.z - p.z
  let dist := Real.sqrt (dx * dx + dy * dy + dz * dz)
  if dist < 5 ∧ 0.1 < dist then
    let force := mouseGravityStrength * 0.01 / (dist * dist)
    ⟨p.x + dx * force, p.y + dy * force, p.z + dz * force⟩
  else p

/-!
## Global scene state (`switchVisualization`, `onCanvasClick`, `addNode`)

The mutable globals of app.js:79-103 that these handlers touch, bundled into
one record.  Mesh/material details with no behavioral role (geometry
tessellation, metalness, …) are not modelled; colors are the hex literals of
the source.
-/

/-- One `VIZ_PRESETS` entry (app.js:31-77); `primary`/`secondary`/`accent`
are the fields of its `colors` object. -/
structure Preset where
  name : String
  particleCount : ℕ
  particleSize : ℝ
  particleSpeed : ℝ
  nodeCount : ℕ
  connectionDistance : ℝ
  primary : ℕ
  secondary : ℕ
  accent : ℕ

/-- The `neural` preset (app.js:32-40). -/
def neuralPreset : Preset :=
  ⟨"Neural Network", 500, 0.03, 0.0002, 80, 3.5, 0x02d7f2, 0xff00aa, 0xffeb0b⟩

/-- The `storm` preset (app.js:41-49). -/
def stormPreset : Preset :=
  ⟨"Data Storm", 2000, 0.02, 0.003, 40, 2.5, 0xff00aa, 0xffeb0b, 0x02d7f2⟩

/-- The `constellation` preset (app.js:50-58). -/
def constellationPreset : Preset :=
  ⟨"Constellation", 300, 0.05, 0.0001, 50, 5, 0xffffff, 0x02d7f2, 0xffeb0b⟩

/-- The `swarm` preset (app.js:59-67). -/
def swarmPreset : Preset :=
  ⟨"Swarm Intelligence", 200, 0.06, 0.008, 30, 4, 0x00ff88, 0x02d7f2, 0xff00aa⟩

/-- The `matrix` preset (app.js:68-76). -/
def matrixPreset : Preset :=
  ⟨"Matrix Rain", 1000, 0.025, 0.002, 60, 3, 0x00ff00, 0x00aa00, 0xffffff⟩

/-- The property names an object literal inherits from `Object.prototype`
(ECMAScript).  A bracket lookup at one of these names on `VIZ_PRESETS` does
not yield `undefined`: it finds the inherited member — a built-in function,
or for `__proto__` the prototype object itself — and every one of them is
truthy. -/
def objectPrototypeNames : List String :=
  ["constructor", "hasOwnProperty", "isPrototypeOf", "propertyIsEnumerable",
   "toLocaleString", "toString", "valueOf", "__proto__", "__defineGetter__",
   "__defineSetter__", "__lookupGetter__", "__lookupSetter__"]

/-- The result of the JS bracket lookup `VIZ_PRESETS[key]`: one of the five
own preset entries, a truthy member inherited from `Object.prototype` (which
is not a preset: it has no `nodeCount`, `colors`, … of its own), or
`undefined`. -/
inductive PresetLookup : Type where
  | preset (p : Preset)
  | inherited
  | undefinedLookup

/-- The preset of a lookup, for call sites (`addNode`, `connectNewNode`)
that assume `currentViz` is a valid key, as the source does. -/
def PresetLookup.getPreset (l : PresetLookup) (dflt : Preset) : Preset :=
  match l with
  | .preset p => p
  | _ => dflt

/-- `VIZ_PRESETS[key]` (app.js:31-77) as JS property lookup: the five own
keys yield their presets; a name inherited from `Object.prototype` yields
that truthy inherited member; any other key yields `undefined`. -/
def VIZ_PRESETS (key : String) : PresetLookup :=
  match key with
  | "neural" => .preset neuralPreset
  | "storm" => .preset stormPreset
  | "constellation" => .preset constellationPreset
  | "swarm" => .preset swarmPreset
  | "matrix" => .preset matrixPreset
  | _ => if key ∈ objectPrototypeNames then .inherited else .undefinedLookup

/-- The mutable `CONFIG` object (app.js:13-28), colors flattened. -/
structure Config where
  nodeCount : ℕ
  connectionDistance : ℝ
  nodeSize : ℝ
  coreSize : ℝ
  fieldSize : ℝ
  rotationSpeed : ℝ
  pulseSpeed : ℝ
  cyan : ℕ
  magenta : ℕ
  yellow : ℕ
  white : ℕ
  background : ℕ

/-- `CONFIG`'s initial value (app.js:13-28). -/
def CONFIG0 : Config :=
  ⟨80, 3.5, 0.08, 0.15, 8, 0.0003, 0.02,
    0x02d7f2, 0xff00aa, 0xffeb0b, 0xffffff, 0x000008⟩

/-- A data-node mesh: its position, scale and the `userData` stored at
creation (app.js:296-304, app.js:993-1002). -/
structure RNode where
  position : Vec3 ℝ
  originalPosition : Vec3 ℝ
  phase : ℝ
  speed : ℝ
  color : ℕ
  emissiveIntensity : ℝ
  scaleFactor : ℝ
  isNew : Bool

/-- A connection line: its `userData` indices, endpoint geometry, color and
opacity. -/
structure RConn where
  data : Conn
  pA : Vec3 ℝ
  pB : Vec3 ℝ
  color : ℕ
  opacity : ℝ

/-- The particle system: buffer attributes, material parameters, and the
preset stashed in `userData` (app.js:914-928).  The color attribute is the
lerp of the preset's two colors at a per-particle mix ratio; color-space
conversion is `THREE.Color` library code, so the model stores the ratio. -/
structure PSys where
  count : ℕ
  positions : ℕ → Vec3 ℝ
  velocities : ℕ → Vec3 ℝ
  colorMix : ℕ → ℝ
  size : ℝ
  opacity : ℝ
  preset : Preset

/-- The core-node mesh colors (app.js:220-256). -/
structure CoreNode where
  glowColor : ℕ
  coreColor : ℕ
  innerColor : ℕ

/-- A point light, as far as `updateLightsForPreset` (app.js:932-942) reads
it: its `position.x` and its color. -/
structure Light where
  posX : ℝ
  color : ℕ

/-- The mutable globals touched by the UI handlers. -/
structure RichState where
  nodes : List RNode
  connections : List RConn
  particleSystem : Option PSys
  coreNode : Option CoreNode
  lights : List Light
  currentViz : String
  config : Config
  addingNode : Bool

/-- `clearScene` (app.js:831-851): empty the node and connection arrays and
drop the particle system and core. -/
def clearScene (st : RichState) : RichState :=
  { st with
    nodes := []
    connections := []
    particleSystem := none
    coreNode := none }

/-- `createCoreNode` (app.js:220-256): glow sphere and wireframe core in
`CONFIG.colors.cyan`, inner core in `CONFIG.colors.yellow`. -/
def createCoreNode (st : RichState) : RichState :=
  { st with coreNode := some ⟨st.config.cyan, st.config.cyan, st.config.yellow⟩ }

/-- One node of `createNodes` (app.js:262-308), consuming six `Math.random()`
values in source order: radius, theta, phi, color choice, phase, speed. -/
noncomputable def mkSceneNode (cfg : Config) (rand : ℕ → ℝ) (c : ℕ) : RNode :=
  let radius := cfg.fieldSize * (0.3 + rand c * 0.7)
  let theta := rand (c + 1) * Real.pi * 2
  let phi := Real.arccos (2 * rand (c + 2) - 1)
  let x := radius * Real.sin phi * Real.cos theta
  let y := radius * Real.sin phi * Real.sin theta
  let z := radius * Real.cos phi
  let colorChoice := rand (c + 3)
  { position := ⟨x, y, z⟩
    originalPosition := ⟨x, y, z⟩
    phase := rand (c + 4) * Real.pi * 2
    speed := 0.5 + rand (c + 5) * 0.5
    color := if colorChoice < 0.5 then cfg.cyan
      else if colorChoice < 0.8 then cfg.magenta else cfg.yellow
    emissiveIntensity := if colorChoice < 0.5 then 0.3
      else if colorChoice < 0.8 then 0.4 else 0.5
    scaleFactor := 1
    isNew := false }

/-- `createNodes` (app.js:259-309): push `CONFIG.nodeCount` random nodes. -/
noncomputable def createNodes (st : RichState) (rand : ℕ → ℝ) (c0 : ℕ) :
    RichState × ℕ :=
  ({ st with
      nodes := st.nodes ++ (List.range st.config.nodeCount).map
        (fun k => mkSceneNode st.config rand (c0 + 6 * k)) },
   c0 + 6 * st.config.nodeCount)

/-- `createConnections` (app.js:312-350): for each node `i` in order, a line
from the origin to it when `|position| < connectionDistance * 1.5`
(`userData = { nodeIndex: i, toCore: true }`), then a line to each later node
`j` with pairwise distance below `connectionDistance`
(`userData = { nodeIndex1: i, nodeIndex2: j }`); all in the cyan config color
at opacity 0.3. -/
noncomputable def createConnections (st : RichState) : RichState :=
  { st with connections := st.connections ++
      (st.nodes.enum.map (fun p =>
        (if vlen p.2.position < st.config.connectionDistance * 1.5 then
          [{ data := Conn.toCore p.1, pA := ⟨0, 0, 0⟩, pB := p.2.position,
             color := st.config.cyan, opacity := 0.3 : RConn }]
         else []) ++
        ((st.nodes.enum.drop (p.1 + 1)).filterMap (fun q =>
          if vdist p.2.position q.2.position < st.config.connectionDistance then
            some { data := Conn.between p.1 q.1, pA := p.2.position,
                   pB := q.2.position, color := st.config.cyan,
                   opacity := 0.3 }
          else none)))).flatten }

/-- The spherical position sampling used by the particle builders
(app.js:874-903): radius scaled by one random, then `theta`, then `phi`. -/
noncomputable def sphericalPos (scale : ℝ) (rand : ℕ → ℝ) (c : ℕ) : Vec3 ℝ :=
  let radius := scale * rand c
  let theta := rand (c + 1) * Real.pi * 2
  let phi := Real.arccos (2 * rand (c + 2) - 1)
  ⟨radius * Real.sin phi * Real.cos theta,
   radius * Real.sin phi * Real.sin theta,
   radius * Real.cos phi⟩

/-- `createParticlesForPreset` (app.js:854-929).  Every loop iteration draws
its randoms in source order with a fixed stride per branch (matrix 5,
storm/swarm 7, default 4), so particle `k`'s randoms start at
`c0 + stride * k`; the last one is the color mix ratio.  `Float32Array`s are
zero-initialized, so unset velocity components are 0. -/
noncomputable def createParticlesForPreset (st : RichState) (preset : Preset)
    (rand : ℕ → ℝ) (c0 : ℕ) : RichState × ℕ :=
  if st.currentViz = "matrix" then
    let ps : PSys :=
      { count := preset.particleCount
        positions := fun k => ⟨(rand (c0 + 5 * k) - 0.5) * 20,
          rand (c0 + 5 * k + 1) * 20 - 5, (rand (c0 + 5 * k + 2) - 0.5) * 20⟩
        velocities := fun k => ⟨0, -0.02 - rand (c0 + 5 * k + 3) * 0.03, 0⟩
        colorMix := fun k => rand (c0 + 5 * k + 4)
        size := preset.particleSize
        opacity := 0.6
        preset := preset }
    ({ st with particleSystem := some ps }, c0 + 5 * preset.particleCount)
  else if st.currentViz = "storm" then
    let ps : PSys :=
      { count := preset.particleCount
        positions := fun k =>
          sphericalPos (st.config.fieldSize * 2) rand (c0 + 7 * k)
        velocities := fun k => ⟨(rand (c0 + 7 * k + 3) - 0.5) * 0.02,
          (rand (c0 + 7 * k + 4) - 0.5) * 0.02,
          (rand (c0 + 7 * k + 5) - 0.5) * 0.02⟩
        colorMix := fun k => rand (c0 + 7 * k + 6)
        size := preset.particleSize
        opacity := 0.6
        preset := preset }
    ({ st with particleSystem := some ps }, c0 + 7 * preset.particleCount)
  else if st.currentViz = "swarm" then
    let ps : PSys :=
      { count := preset.particleCount
        positions := fun k =>
          sphericalPos (st.config.fieldSize * 2.5) rand (c0 + 7 * k)
        velocities := fun k => ⟨(rand (c0 + 7 * k + 3) - 0.5) * 0.02,
          (rand (c0 + 7 * k + 4) - 0.5) * 0.02,
          (rand (c0 + 7 * k + 5) - 0.5) * 0.02⟩
        colorMix := fun k => rand (c0 + 7 * k + 6)
        size := preset.particleSize
        opacity := 0.6
        preset := preset }
    ({ st with particleSystem := some ps }, c0 + 7 * preset.particleCount)
  else
    let ps : PSys :=
      { count := preset.particleCount
        positions := fun k =>
          sphericalPos (st.config.fieldSize * 1.5) rand (c0 + 4 * k)
        velocities := fun _ => ⟨0, 0, 0⟩
        colorMix := fun k => rand (c0 + 4 * k + 3)
        size := preset.particleSize
        opacity := if st.currentViz = "constellation" then 0.9 else 0.6
        preset := preset }
    ({ st with particleSystem := some ps }, c0 + 4 * preset.particleCount)

/-- `updateLightsForPreset` (app.js:932-942): point lights with positive `x`
take the preset's primary color, the rest its secondary. -/
noncomputable def updateLightsForPreset (st : RichState) (preset : Preset) :
    RichState :=
  { st with lights := st.lights.map (fun l =>
      if 0 < l.posX then { l with color := preset.primary }
      else { l with color := preset.secondary }) }

/-- `switchVisualization(vizKey)` (app.js:802-828).  `if (!preset) return`
fires only when the bracket lookup is `undefined`; a valid key sets
`currentViz`, updates the config, clears the scene and rebuilds core, nodes,
connections, particles and lights (`updateHUD` touches only the DOM).  A key
naming an inherited `Object.prototype` member passes the guard with a truthy
non-preset value: `currentViz = vizKey` runs (app.js:806), then
`CONFIG.nodeCount` and `CONFIG.connectionDistance` are overwritten with
`undefined` (app.js:809-810, a value outside `ℕ`/`ℝ`, so the Lean payload
keeps their old numbers), and `CONFIG.colors.cyan = preset.colors.primary`
(app.js:811) throws an uncaught `TypeError` (`preset.colors` is undefined),
aborting the handler — modelled as `Except.error` carrying the state at the
throw. -/
noncomputable def switchVisualization (st : RichState) (vizKey : String)
    (rand : ℕ → ℝ) (c0 : ℕ) : Except RichState RichState :=
  match VIZ_PRESETS vizKey with
  | .undefinedLookup => .ok st
  | .inherited => .error { st with currentViz := vizKey }
  | .preset preset =>
    let st1 := { st with
      currentViz := vizKey
      config := { st.config with
        nodeCount := preset.nodeCount
        connectionDistance := preset.connectionDistance
        cyan := preset.primary
        magenta := preset.secondary
        yellow := preset.accent } }
    let st2 := createCoreNode (clearScene st1)
    let st3c := createNodes st2 rand c0
    let st4 := createConnections st3c.1
    let st5c := createParticlesForPreset st4 preset rand st3c.2
    .ok (updateLightsForPreset st5c.1 preset)

/-- JS `Math.atan2(y, x)`: quadrant-aware arctangent with
`atan2(0, 0) = 0`. -/
noncomputable def atan2 (y x : ℝ) : ℝ :=
  if 0 < x then Real.arctan (y / x)
  else if x < 0 then
    (if 0 ≤ y then Real.arctan (y / x) + Real.pi
     else Real.arctan (y / x) - Real.pi)
  else
    (if 0 < y then Real.pi / 2 else if y < 0 then -(Real.pi / 2) else 0)

/-- `connectNewNode(newNode)` (app.js:1029-1052): connect the just-pushed
node (stored at index `nodes.length - 1`) to each earlier node within
`connectionDistance * 1.5`, with accent-colored lines at opacity 0.5.
`VIZ_PRESETS[currentViz]` is assumed to be a valid key, as the source does. -/
noncomputable def connectNewNode (st : RichState) (newNode : RNode) :
    RichState :=
  let preset := (VIZ_PRESETS st.currentViz).getPreset neuralPreset
  { st with connections := st.connections ++
      (st.nodes.dropLast.enum.filterMap (fun p =>
        if vdist newNode.position p.2.position <
            st.config.connectionDistance * 1.5 then
          some { data := Conn.between (st.nodes.length - 1) p.1
                 pA := newNode.position, pB := p.2.position
                 color := preset.accent, opacity := 0.5 }
        else none)) }

/-- `addNode(position)` (app.js:979-1026): build an accent-colored node with
fresh phase and speed (two `Math.random()` calls, in that order), scale 0 at
spawn (the asynchronous spawn animation is not modelled), push it, then
connect it to nearby earlier nodes. -/
noncomputable def addNode (st : RichState) (position : Vec3 ℝ)
    (rand : ℕ → ℝ) (c : ℕ) : RichState :=
  let preset := (VIZ_PRESETS st.currentViz).getPreset neuralPreset
  let node : RNode :=
    { position := position
      originalPosition := position
      phase := rand c * Real.pi * 2
      speed := 0.5 + rand (c + 1) * 0.5
      color := preset.accent
      emissiveIntensity := 0.8
      scaleFactor := 0
      isNew := true }
  connectNewNode { st with nodes := st.nodes ++ [node] } node

/-- `onCanvasClick(event)` (app.js:945-976).  The ray–plane intersection is
Three.js library code and enters as `intersectOpt`: `Ray.intersectPlane`
writes a hit into its target and returns it, or returns `null` and leaves the
target at its freshly constructed `(0, 0, 0)`.  The subsequent
`if (intersectPoint)` tests the `Vector3` object itself, which is always
truthy, so the body runs in both cases.  One `Math.random()` supplies the
depth `z`; `addNode` consumes the stream from `c0 + 1`. -/
noncomputable def onCanvasClick (st : RichState)
    (intersectOpt : Option (Vec3 ℝ)) (rand : ℕ → ℝ) (c0 : ℕ) : RichState :=
  if st.addingNode = false then st
  else
    let intersectPoint := intersectOpt.getD ⟨0, 0, 0⟩
    let ix := max (-10) (min 10 intersectPoint.x)
    let iy := max (-10) (min 10 intersectPoint.y)
    let iz := (rand c0 - 0.5) * 4
    let distFromCenter := Real.sqrt (ix ^ 2 + iy ^ 2)
    if distFromCenter < 2 then
      let angle := atan2 iy ix
      addNode st ⟨Real.cos angle * 2.5, Real.sin angle * 2.5, iz⟩ rand (c0 + 1)
    else
      addNode st ⟨ix, iy, iz⟩ rand (c0 + 1)

/-- The global state right after `init` builds the default neural scene,
with the scene arrays left empty (their random contents play no role in the
theorems below) and add-node mode toggled on. -/
def baseState : RichState :=
  { nodes := []
    connections := []
    particleSystem := none
    coreNode := none
    lights := [⟨5, 0x02d7f2⟩, ⟨-5, 0xff00aa⟩, ⟨0, 0xffeb0b⟩]
    currentViz := "neural"
    config := CONFIG0
    addingNode := true }

/-- A pulse that finishes on the next `animateDataPulses` call. -/
def pulseA : Pulse :=
  { id := 0, startP := ⟨0, 0, 0⟩, endP := ⟨1, 0, 0⟩, position := ⟨0, 0, 0⟩
    progress := 0.5, speed := 0.6, opacity := 0.9, glowOpacity := 0.27 }

/-- A pulse that is still in flight on the next `animateDataPulses` call. -/
def pulseB : Pulse :=
  { id := 1, startP := ⟨0, 0, 0⟩, endP := ⟨0, 1, 0⟩, position := ⟨0, 0, 0⟩
    progress := 0.1, speed := 0.1, opacity := 0.9, glowOpacity := 0.27 }

/-! ## Theorems -/

theorem Vec3.add_def {R : Type} [Add R] (a b : Vec3 R) :
    a + b = ⟨a.x + b.x, a.y + b.y, a.z + b.z⟩ := rfl

theorem Vec3.sub_def {R : Type} [Sub R] (a b : Vec3 R) :
    a - b = ⟨a.x - b.x, a.y - b.y, a.z - b.z⟩ := rfl

theorem Vec3.smul_def {R : Type} [Mul R] (c : R) (a : Vec3 R) :
    c • a = ⟨c * a.x, c * a.y, c * a.z⟩ := rfl

/-- Erasing index `idx` moves the element formerly at index `k ≠ idx` to
index `shiftIdx idx k`. -/
theorem getElem?_eraseIdx_shiftIdx {α : Type} (l : List α) (idx k : ℕ)
    (_hidx : idx < l.length) (_hk : k < l.length) (hne : k ≠ idx) :
    (l.eraseIdx idx)[shiftIdx idx k]? = l[k]? := by
  unfold shiftIdx
  rcases Nat.lt_or_ge idx k with h | h
  · rw [if_pos h, List.getElem?_eraseIdx_of_ge l idx (k - 1) (by omega)]
    congr 1
    omega
  · rw [if_neg (by omega)]
    exact List.getElem?_eraseIdx_of_lt l idx k (by omega)

/-- C2: after `deleteNode` removes a node present in `nodes`, (1) the
connection array consists exactly of the previously non-incident connections
with their stored indices shifted down — in particular every connection
incident to the deleted node is gone; (2) every remaining connection's stored
indices are valid for the shrunken node array; (3) each surviving connection's
new stored indices reference exactly the node objects its old indices
referenced before the deletion. -/
theorem deleteNode_preserves_connection_refs {α : Type} [DecidableEq α]
    (st : GraphState α) (node : α) (hmem : node ∈ st.nodes)
    (hvalid : ∀ c ∈ st.connections, c.valid st.nodes.length = true) :
    (deleteNode st node).connections =
      (st.connections.filter
        (fun c => !(c.incident (st.nodes.indexOf node)))).map
        (Conn.shiftDown · (st.nodes.indexOf node)) ∧
    (∀ c' ∈ (deleteNode st node).connections,
      c'.valid (deleteNode st node).nodes.length = true) ∧
    (∀ c ∈ st.connections, c.incident (st.nodes.indexOf node) = false →
      (c.shiftDown (st.nodes.indexOf node)).refs =
        c.refs.map (shiftIdx (st.nodes.indexOf node)) ∧
      ∀ k ∈ c.refs,
        (deleteNode st node).nodes[shiftIdx (st.nodes.indexOf node) k]? =
          st.nodes[k]?) := by
  have hidx : st.nodes.indexOf node < st.nodes.length :=
    List.indexOf_lt_length.2 hmem
  have hdel : deleteNode st node =
      { nodes := st.nodes.eraseIdx (st.nodes.indexOf node)
        connections := (st.connections.filter
          (fun c => !(c.incident (st.nodes.indexOf node)))).map
          (Conn.shiftDown · (st.nodes.indexOf node))
        scene := ((st.connections.filter
            (·.incident (st.nodes.indexOf node))).foldl
            (fun s c => s.erase (SceneItem.conn c)) st.scene).erase
          (SceneItem.node node) } := by
    simp [deleteNode, hmem]
  have hlen : (st.nodes.eraseIdx (st.nodes.indexOf node)).length =
      st.nodes.length - 1 := by
    rw [List.length_eraseIdx]
    simp [hidx]
  refine ⟨by rw [hdel], ?_, ?_⟩
  · intro c' hc'
    rw [hdel] at hc'
    rw [hdel]
    simp only [List.mem_map] at hc'
    obtain ⟨c, hcf, rfl⟩ := hc'
    rw [List.mem_filter] at hcf
    obtain ⟨hcmem, hninc⟩ := hcf
    have hv := hvalid c hcmem
    simp only [Bool.not_eq_true', Bool.not_eq_false] at hninc
    cases c with
    | toCore k =>
        simp only [Conn.valid, Conn.incident, Conn.shiftDown, shiftIdx,
          decide_eq_true_eq, beq_eq_false_iff_ne, ne_eq] at hv hninc ⊢
        rw [hlen]
        split <;> omega
    | between k l =>
        simp only [Conn.valid, Conn.incident, Conn.shiftDown, shiftIdx,
          Bool.and_eq_true, Bool.or_eq_false_iff, decide_eq_true_eq,
          beq_eq_false_iff_ne, ne_eq] at hv hninc ⊢
        rw [hlen]
        constructor <;> (split <;> omega)
  · intro c hcmem hninc
    have hv := hvalid c hcmem
    constructor
    · cases c <;> simp [Conn.shiftDown, Conn.refs]
    · intro k hk
      rw [hdel]
      apply getElem?_eraseIdx_shiftIdx st.nodes _ k hidx
      · cases c with
        | toCore k0 =>
            simp only [Conn.refs, List.mem_singleton] at hk
            simp only [Conn.valid, decide_eq_true_eq] at hv
            omega
        | between k0 l0 =>
            simp only [Conn.refs, List.mem_cons, List.mem_singleton,
              List.not_mem_nil, or_false] at hk
            simp only [Conn.valid, Bool.and_eq_true, decide_eq_true_eq] at hv
            rcases hk with rfl | rfl <;> omega
      · cases c with
        | toCore k0 =>
            simp only [Conn.refs, List.mem_singleton] at hk
            simp only [Conn.incident, beq_eq_false_iff_ne, ne_eq] at hninc
            omega
        | between k0 l0 =>
            simp only [Conn.refs, List.mem_cons, List.mem_singleton,
              List.not_mem_nil, or_false] at hk
            simp only [Conn.incident, Bool.or_eq_false_iff,
              beq_eq_false_iff_ne, ne_eq] at hninc
            rcases hk with rfl | rfl <;> omega

/-- Witness for C2 at the concrete state `st20`, deleting node `20`. -/
theorem deleteNode_preserves_connection_refs_witness :
    (20 ∈ st20.nodes) ∧
    (deleteNode st20 20).connections =
      (st20.connections.filter
        (fun c => !(c.incident (st20.nodes.indexOf 20)))).map
        (Conn.shiftDown · (st20.nodes.indexOf 20)) :=
  ⟨by decide, (deleteNode_preserves_connection_refs st20 20 (by decide)
    (by decide)).1⟩

/-- C8: `deleteNode` on an object absent from `nodes` (JS `indexOf` returns
`-1`) leaves the nodes array, the connections array and the scene unchanged. -/
theorem deleteNode_not_mem_noop {α : Type} [DecidableEq α]
    (st : GraphState α) (node : α) (h : node ∉ st.nodes) :
    deleteNode st node = st := by
  simp [deleteNode, h]

/-- Witness for C8: deleting an id not present in `st20` is a no-op. -/
theorem deleteNode_not_mem_noop_witness :
    ((99 : ℕ) ∉ st20.nodes) ∧ deleteNode st20 99 = st20 :=
  ⟨by decide, deleteNode_not_mem_noop st20 99 (by decide)⟩

/-- Folding `List.erase` over elements that all differ from the head leaves
the head in place. -/
theorem foldl_erase_cons {β : Type} [DecidableEq β] (xs : List β) (a : β)
    (t : List β) (h : ∀ x ∈ xs, x ≠ a) :
    xs.foldl (fun acc x => acc.erase x) (a :: t) =
      a :: xs.foldl (fun acc x => acc.erase x) t := by
  induction xs generalizing t with
  | nil => rfl
  | cons y ys ih =>
      have hy : y ≠ a := h y (List.mem_cons_self y ys)
      simp only [List.foldl_cons]
      rw [List.erase_cons_tail (by simp [hy.symm]), ih]
      intro x hx
      exact h x (List.mem_cons_of_mem y hx)

/-- Erasing, one by one, every element of `l.filter p` from a duplicate-free
list `l` leaves exactly `l.filter (fun x => !p x)`. -/
theorem filter_foldl_erase {β : Type} [DecidableEq β] (l : List β)
    (hl : l.Nodup) (p : β → Bool) :
    (l.filter p).foldl (fun acc x => acc.erase x) l =
      l.filter (fun x => !p x) := by
  induction l with
  | nil => rfl
  | cons a t ih =>
      have hnodup := (List.nodup_cons.1 hl).2
      have hnotmem := (List.nodup_cons.1 hl).1
      by_cases hp : p a
      · rw [List.filter_cons_of_pos hp, List.filter_cons_of_neg (by simp [hp])]
        simp only [List.foldl_cons, List.erase_cons_head]
        exact ih hnodup
      · rw [List.filter_cons_of_neg (by simp [hp]),
          List.filter_cons_of_pos (by simp [hp])]
        rw [foldl_erase_cons _ a t ?_, ih hnodup]
        intro x hx
        exact fun hxa => hnotmem (hxa ▸ List.mem_of_mem_filter hx)

/-- Folding `List.erase` never introduces new elements. -/
theorem not_mem_foldl_erase {β : Type} [DecidableEq β] (xs : List β)
    (s : List β) (x : β) (h : x ∉ s) :
    x ∉ xs.foldl (fun acc y => acc.erase y) s := by
  induction xs generalizing s with
  | nil => exact h
  | cons y ys ih =>
      simp only [List.foldl_cons]
      exact ih (s.erase y) fun hx => h (List.erase_subset y s hx)

/-- Folding `List.erase` over a list containing `x`, starting from a
duplicate-free list, removes `x` for good. -/
theorem mem_foldl_erase_removed {β : Type} [DecidableEq β] (xs : List β)
    (s : List β) (hs : s.Nodup) (x : β) (hx : x ∈ xs) :
    x ∉ xs.foldl (fun acc y => acc.erase y) s := by
  induction xs generalizing s with
  | nil => cases hx
  | cons y ys ih =>
      simp only [List.foldl_cons]
      rcases List.mem_cons.1 hx with rfl | hmem
      · exact not_mem_foldl_erase ys (s.erase x) x fun hc =>
          ((hs.mem_erase_iff).1 hc).1 rfl
      · exact ih (s.erase y) (hs.erase y) hmem

/-- C10: after `animateDataPulses`, every pulse remaining in `dataPulses` has
progress strictly below 1, and every pulse whose advanced progress reached 1
during the call is gone from both the scene's pulse children and `dataPulses`.
The hypotheses say the pulse meshes and the scene children are distinct
objects, which object identity guarantees in the source. -/
theorem animateDataPulses_removes_finished (scene : List ℕ)
    (pulses : List Pulse) (hscene : scene.Nodup)
    (hids : (pulses.map Pulse.id).Nodup) :
    (∀ p ∈ (animateDataPulses scene pulses).2, p.progress < 1) ∧
    (∀ p ∈ pulses.map stepPulse, 1 ≤ p.progress →
      p ∉ (animateDataPulses scene pulses).2 ∧
      p.id ∉ (animateDataPulses scene pulses).1) := by
  have hid : ∀ p : Pulse, (stepPulse p).id = p.id := by
    intro p
    by_cases h : 1 ≤ p.progress + p.speed <;> simp [stepPulse, h]
  have hmapid : (pulses.map stepPulse).map Pulse.id = pulses.map Pulse.id := by
    rw [List.map_map]
    exact List.map_congr_left fun p _ => hid p
  have hnodup : (pulses.map stepPulse).Nodup := by
    refine List.Nodup.of_map Pulse.id ?_
    rw [hmapid]
    exact hids
  have hsnd : (animateDataPulses scene pulses).2 =
      (pulses.map stepPulse).filter (fun p => !(decide (1 ≤ p.progress))) := by
    unfold animateDataPulses
    exact filter_foldl_erase _ hnodup _
  constructor
  · intro p hp
    rw [hsnd] at hp
    have := List.of_mem_filter hp
    simpa using this
  · intro p hp hprog
    constructor
    · rw [hsnd]
      intro hc
      have := List.of_mem_filter hc
      simp only [Bool.not_eq_true', decide_eq_false_iff_not, not_le] at this
      exact absurd hprog (not_le.2 this)
    · have h1 : (animateDataPulses scene pulses).1 =
          (((pulses.map stepPulse).filter
            (fun q => decide (1 ≤ q.progress))).map Pulse.id).foldl
            (fun s k => s.erase k) scene := by
        simp only [animateDataPulses]
        exact (List.foldl_map _ _ _ _).symm
      rw [h1]
      refine mem_foldl_erase_removed _ scene hscene p.id ?_
      exact List.mem_map_of_mem Pulse.id (List.mem_filter.2 ⟨hp, by simpa⟩)

/-- A fold whose step writes only buffer slot `i` at iteration `i` leaves
every slot outside the iteration list untouched. -/
theorem foldl_local_not_mem {α β : Type}
    (step : (ℕ → α) × β → ℕ → (ℕ → α) × β)
    (hloc : ∀ s i j, j ≠ i → (step s i).1 j = s.1 j) (L : List ℕ) :
    ∀ (s : (ℕ → α) × β) (i : ℕ), i ∉ L → (L.foldl step s).1 i = s.1 i := by
  induction L with
  | nil => intro s i _; rfl
  | cons a t ih =>
      intro s i hi
      simp only [List.foldl_cons]
      rw [ih (step s a) i fun h => hi (List.mem_cons_of_mem a h)]
      exact hloc s a i fun h => hi (h ▸ List.mem_cons_self a t)

/-- For a duplicate-free iteration list, the final value of slot `i ∈ L` is
whatever the step wrote during `i`'s own iteration, computed from some
intermediate state in which slot `i` still held its initial value. -/
theorem foldl_local_mem {α β : Type}
    (step : (ℕ → α) × β → ℕ → (ℕ → α) × β)
    (hloc : ∀ s i j, j ≠ i → (step s i).1 j = s.1 j) (L : List ℕ) :
    ∀ (s : (ℕ → α) × β) (i : ℕ), L.Nodup → i ∈ L →
      ∃ s', s'.1 i = s.1 i ∧ (L.foldl step s).1 i = (step s' i).1 i := by
  induction L with
  | nil => intro s i _ hi; cases hi
  | cons a t ih =>
      intro s i hL hi
      simp only [List.foldl_cons]
      rcases List.mem_cons.1 hi with rfl | hmem
      · exact ⟨s, rfl, foldl_local_not_mem step hloc t (step s i) i
          (List.nodup_cons.1 hL).1⟩
      · have hne : i ≠ a := fun h => (List.nodup_cons.1 hL).1 (h ▸ hmem)
        obtain ⟨s', h1, h2⟩ := ih (step s a) i (List.nodup_cons.1 hL).2 hmem
        exact ⟨s', by rw [h1]; exact hloc s a i hne, h2⟩

/-- C7: the mouse-gravity step moves a particle at distance `d` from the
cursor's world position, with `0.1 < d < 5`, toward the cursor by the
displacement scaled by `0.005 / d²` (`mouseGravityStrength * 0.01 / d²`),
and leaves every particle at distance `≤ 0.1` or `≥ 5` unchanged. -/
theorem applyMouseGravity_characterization (mouseWorld : Vec3 ℝ)
    (positions : ℕ → Vec3 ℝ) (i : ℕ) :
    applyMouseGravity mouseWorld positions i =
      if 0.1 < vdist (positions i) mouseWorld ∧
          vdist (positions i) mouseWorld < 5 then
        positions i + (0.005 / (vdist (positions i) mouseWorld) ^ 2) •
          (mouseWorld - positions i)
      else positions i := by
  have hd : vdist (positions i) mouseWorld =
      Real.sqrt ((mouseWorld.x - (positions i).x) *
          (mouseWorld.x - (positions i).x) +
        (mouseWorld.y - (positions i).y) * (mouseWorld.y - (positions i).y) +
        (mouseWorld.z - (positions i).z) * (mouseWorld.z - (positions i).z)) :=
    rfl
  simp only [applyMouseGravity, ← hd, mouseGravityStrength]
  by_cases h : 0.1 < vdist (positions i) mouseWorld ∧
      vdist (positions i) mouseWorld < 5
  · rw [if_pos ⟨h.2, h.1⟩, if_pos h]
    have hne : vdist (positions i) mouseWorld ≠ 0 := by
      intro h0
      rw [h0] at h
      exact absurd h.1 (by norm_num)
    simp only [Vec3.add_def, Vec3.sub_def, Vec3.smul_def, Vec3.mk.injEq]
    refine ⟨?_, ?_, ?_⟩ <;> (field_simp; ring)
  · rw [if_neg (fun hc => h ⟨hc.2, hc.1⟩), if_neg h]

/-- The Euclidean length is nonnegative. -/
theorem vlen_nonneg (v : Vec3 ℝ) : 0 ≤ vlen v := Real.sqrt_nonneg _

/-- When the clamp fires (`speed > maxSpeed`), the rescaled velocity has
magnitude exactly `maxSpeed`. -/
theorem vlen_limitSpeed_eq (v : Vec3 ℝ) (h : maxSpeed < vlen v) :
    vlen (limitSpeed v) = maxSpeed := by
  have hm : (0 : ℝ) < maxSpeed := by norm_num [maxSpeed]
  have hs : 0 < vlen v := lt_trans hm h
  simp only [limitSpeed, if_pos h]
  show Real.sqrt (v.x / vlen v * maxSpeed * (v.x / vlen v * maxSpeed) +
    v.y / vlen v * maxSpeed * (v.y / vlen v * maxSpeed) +
    v.z / vlen v * maxSpeed * (v.z / vlen v * maxSpeed)) = maxSpeed
  have key : v.x / vlen v * maxSpeed * (v.x / vlen v * maxSpeed) +
      v.y / vlen v * maxSpeed * (v.y / vlen v * maxSpeed) +
      v.z / vlen v * maxSpeed * (v.z / vlen v * maxSpeed) =
      (maxSpeed / vlen v) ^ 2 * (v.x * v.x + v.y * v.y + v.z * v.z) := by
    ring
  rw [key, Real.sqrt_mul (sq_nonneg _), Real.sqrt_sq_eq_abs]
  have hlen : Real.sqrt (v.x * v.x + v.y * v.y + v.z * v.z) = vlen v := rfl
  rw [hlen, abs_of_pos (div_pos hm hs)]
  field_simp

/-- The clamp never lets a velocity keep magnitude above `maxSpeed`. -/
theorem vlen_limitSpeed_le (v : Vec3 ℝ) : vlen (limitSpeed v) ≤ maxSpeed := by
  by_cases h : maxSpeed < vlen v
  · exact le_of_eq (vlen_limitSpeed_eq v h)
  · rw [show limitSpeed v = v by simp [limitSpeed, h]]
    exact not_lt.1 h

/-- C4: after a full swarm frame every particle's velocity has Euclidean
magnitude at most `maxSpeed = 0.03`, and the speed-limit clamp rescales any
velocity exceeding that bound to magnitude exactly `0.03`. -/
theorem swarm_speed_clamped :
    (∀ (n : ℕ) (positions velocities : ℕ → Vec3 ℝ) (i : ℕ), i < n →
      vlen ((swarmFrame n positions velocities i).2) ≤ maxSpeed) ∧
    (∀ v : Vec3 ℝ, maxSpeed < vlen v → vlen (limitSpeed v) = maxSpeed) := by
  constructor
  · intro n positions velocities i hi
    have hloc : ∀ s j k, k ≠ j → ((swarmStep n) s j).1 k = s.1 k := by
      intro s j k hk
      simp only [swarmStep]
      exact Function.update_noteq hk _ _
    obtain ⟨s', _h1, h2⟩ := foldl_local_mem (swarmStep n) hloc (List.range n)
      ((fun j => (positions j, velocities j)), ()) i (List.nodup_range n)
      (List.mem_range.2 hi)
    have h3 : swarmFrame n positions velocities i = (swarmStep n s' i).1 i := h2
    rw [h3]
    simp only [swarmStep, Function.update_same]
    exact vlen_limitSpeed_le _
  · exact vlen_limitSpeed_eq

/-- Witness for C4 at a one-particle swarm at rest. -/
theorem swarm_speed_clamped_witness :
    (0 < 1) ∧
    vlen ((swarmFrame 1 (fun _ => ⟨0, 0, 0⟩) (fun _ => ⟨0, 0, 0⟩) 0).2) ≤
      maxSpeed :=
  ⟨by norm_num,
    swarm_speed_clamped.1 1 (fun _ => ⟨0, 0, 0⟩) (fun _ => ⟨0, 0, 0⟩) 0
      (by norm_num)⟩

/-- The swarm neighbor loop is a running sum: folding `flockStep` over any
index list accumulates, for each of the nine sums and three counts, exactly
the contributions of the indices passing the corresponding branch
condition. -/
theorem flockStep_foldl_char (pos vel : ℕ → Vec3 ℝ) (i : ℕ) (L : List ℕ)
    (acc : FlockAcc) :
    L.foldl (flockStep pos vel i) acc =
      { sepX := acc.sepX - ((L.filter (codeSepGate pos i)).map
          (fun j => ((pos j).x - (pos i).x) / pdist pos i j)).sum
        sepY := acc.sepY - ((L.filter (codeSepGate pos i)).map
          (fun j => ((pos j).y - (pos i).y) / pdist pos i j)).sum
        sepZ := acc.sepZ - ((L.filter (codeSepGate pos i)).map
          (fun j => ((pos j).z - (pos i).z) / pdist pos i j)).sum
        sepCount := acc.sepCount + (L.filter (codeSepGate pos i)).length
        alignX := acc.alignX + ((L.filter (codePerceptionGate pos i)).map
          (fun j => (vel j).x)).sum
        alignY := acc.alignY + ((L.filter (codePerceptionGate pos i)).map
          (fun j => (vel j).y)).sum
        alignZ := acc.alignZ + ((L.filter (codePerceptionGate pos i)).map
          (fun j => (vel j).z)).sum
        alignCount := acc.alignCount +
          (L.filter (codePerceptionGate pos i)).length
        cohX := acc.cohX + ((L.filter (codePerceptionGate pos i)).map
          (fun j => (pos j).x)).sum
        cohY := acc.cohY + ((L.filter (codePerceptionGate pos i)).map
          (fun j => (pos j).y)).sum
        cohZ := acc.cohZ + ((L.filter (codePerceptionGate pos i)).map
          (fun j => (pos j).z)).sum
        cohCount := acc.cohCount +
          (L.filter (codePerceptionGate pos i)).length } := by
  induction L generalizing acc with
  | nil => simp
  | cons a t ih =>
      simp only [List.foldl_cons]
      rw [ih]
      by_cases h1 : i = a
      · subst h1
        simp [flockStep, List.filter_cons, codeSepGate, codePerceptionGate]
      · by_cases h2 : pdist pos i a < perceptionRadius ∧ 0 < pdist pos i a
        · by_cases h3 : pdist pos i a < separationDist
          · have hg1 : codeSepGate pos i a = true := by
              simp [codeSepGate, h1, h2.1, h2.2, h3]
            have hg2 : codePerceptionGate pos i a = true := by
              simp [codePerceptionGate, h1, h2.1, h2.2]
            simp only [flockStep, if_neg h1, if_pos h2, if_pos h3,
              List.filter_cons, hg1, hg2, if_true, List.map_cons,
              List.sum_cons, List.length_cons]
            simp only [FlockAcc.mk.injEq]
            refine ⟨?_, ?_, ?_, ?_, ?_, ?_, ?_, ?_, ?_, ?_, ?_, ?_⟩ <;>
              first | omega | ring1
          · have hg1 : codeSepGate pos i a = false := by
              simp [codeSepGate, h3]
            have hg2 : codePerceptionGate pos i a = true := by
              simp [codePerceptionGate, h1, h2.1, h2.2]
            simp only [flockStep, if_neg h1, if_pos h2, if_neg h3,
              List.filter_cons, hg1, hg2, if_true, Bool.false_eq_true,
              if_false, List.map_cons, List.sum_cons, List.length_cons]
            simp only [FlockAcc.mk.injEq]
            refine ⟨?_, ?_, ?_, ?_, ?_, ?_, ?_, ?_, ?_, ?_, ?_, ?_⟩ <;>
              first | omega | ring1 | ring_nf
        · have hg1 : codeSepGate pos i a = false := by
            simp only [codeSepGate, decide_eq_false_iff_not]
            rintro ⟨-, hh, -⟩
            exact h2 hh
          have hg2 : codePerceptionGate pos i a = false := by
            simp only [codePerceptionGate, decide_eq_false_iff_not]
            rintro ⟨-, hh⟩
            exact h2 hh
          simp [flockStep, if_neg h1, if_neg h2, List.filter_cons, hg1, hg2]

/-- C3 (amended): for every particle `i`, the swarm neighbor scan checks
every other particle pairwise and accumulates its separation force from
exactly the other particles at distance greater than 0 and less than
`separationDist = 1`, and its alignment and cohesion sums and counts from
exactly the other particles at distance greater than 0 and less than
`perceptionRadius = 3`. -/
theorem flockAccOf_exact_neighbors (pos vel : ℕ → Vec3 ℝ) (n i : ℕ) :
    (flockAccOf pos vel n i).sepCount = (sepNeighbors pos n i).length ∧
    (flockAccOf pos vel n i).sepX = -(((sepNeighbors pos n i).map
      (fun j => ((pos j).x - (pos i).x) / pdist pos i j)).sum) ∧
    (flockAccOf pos vel n i).sepY = -(((sepNeighbors pos n i).map
      (fun j => ((pos j).y - (pos i).y) / pdist pos i j)).sum) ∧
    (flockAccOf pos vel n i).sepZ = -(((sepNeighbors pos n i).map
      (fun j => ((pos j).z - (pos i).z) / pdist pos i j)).sum) ∧
    (flockAccOf pos vel n i).alignCount =
      (perceptionNeighbors pos n i).length ∧
    (flockAccOf pos vel n i).alignX =
      ((perceptionNeighbors pos n i).map (fun j => (vel j).x)).sum ∧
    (flockAccOf pos vel n i).alignY =
      ((perceptionNeighbors pos n i).map (fun j => (vel j).y)).sum ∧
    (flockAccOf pos vel n i).alignZ =
      ((perceptionNeighbors pos n i).map (fun j => (vel j).z)).sum ∧
    (flockAccOf pos vel n i).cohCount =
      (perceptionNeighbors pos n i).length ∧
    (flockAccOf pos vel n i).cohX =
      ((perceptionNeighbors pos n i).map (fun j => (pos j).x)).sum ∧
    (flockAccOf pos vel n i).cohY =
      ((perceptionNeighbors pos n i).map (fun j => (pos j).y)).sum ∧
    (flockAccOf pos vel n i).cohZ =
      ((perceptionNeighbors pos n i).map (fun j => (pos j).z)).sum := by
  have hsep : (List.range n).filter (codeSepGate pos i) =
      sepNeighbors pos n i := by
    unfold sepNeighbors
    apply List.filter_congr
    intro j _
    rw [codeSepGate, decide_eq_decide]
    constructor
    · rintro ⟨hne, ⟨-, hpos⟩, hlt1⟩
      exact ⟨fun h => hne h.symm, hpos, hlt1⟩
    · rintro ⟨hne, hpos, hlt1⟩
      refine ⟨fun h => hne h.symm, ⟨?_, hpos⟩, hlt1⟩
      exact lt_trans hlt1 (by norm_num [separationDist, perceptionRadius])
  have hper : (List.range n).filter (codePerceptionGate pos i) =
      perceptionNeighbors pos n i := by
    unfold perceptionNeighbors
    apply List.filter_congr
    intro j _
    rw [codePerceptionGate, decide_eq_decide]
    constructor
    · rintro ⟨hne, hlt3, hpos⟩
      exact ⟨fun h => hne h.symm, hpos, hlt3⟩
    · rintro ⟨hne, hpos, hlt3⟩
      exact ⟨fun h => hne h.symm, hlt3, hpos⟩
  rw [flockAccOf, flockStep_foldl_char, hsep, hper]
  simp

/-- C3 as stated is refuted by two coincident particles: particle 1 is at
distance 0 (hence less than 1) from particle 0, so the claim's separation
set contains it, but the code's separation count stays 0 because the
perception gate requires `dist > 0`. -/
theorem flock_sep_claim_counterexample :
    ¬ ((flockAccOf (fun _ => ⟨0, 0, 0⟩) (fun _ => ⟨0, 0, 0⟩) 2 0).sepCount =
      ((List.range 2).filter (fun j => decide (j ≠ 0 ∧
        pdist (fun _ => ⟨0, 0, 0⟩) 0 j < separationDist))).length) := by
  have hd : ∀ j : ℕ, pdist (fun _ => (⟨0, 0, 0⟩ : Vec3 ℝ)) 0 j = 0 := by
    intro j
    simp [pdist]
  have h1 : (flockAccOf (fun _ => ⟨0, 0, 0⟩)
      (fun _ => ⟨0, 0, 0⟩) 2 0).sepCount = 0 := by
    rw [flockAccOf, flockStep_foldl_char]
    have hnil : (List.range 2).filter
        (codeSepGate (fun _ => ⟨0, 0, 0⟩) 0) = [] := by
      apply List.filter_eq_nil_iff.2
      intro a _
      simp [codeSepGate, hd]
    simp [hnil]
  have h2 : ((List.range 2).filter (fun j => decide (j ≠ 0 ∧
      pdist (fun _ => (⟨0, 0, 0⟩ : Vec3 ℝ)) 0 j < separationDist))).length =
      1 := by
    have hr2 : List.range 2 = [0, 1] := by decide
    rw [hr2, List.filter_cons, List.filter_cons, List.filter_nil]
    simp [hd, separationDist]
  rw [h1, h2]
  norm_num

/-- C5: in a matrix-rain frame, particle `i`'s `y` decreases by its stored
fall delta (its stored `velocity[i].y`, a negative fall speed, or `-0.03`
when no velocity attribute exists).  If the new `y` is below `-10` the
particle is reset in the same frame to `y = 15` with fresh random `x` and `z`
in `[-10, 10)`; otherwise `x` and `z` are unchanged. -/
theorem matrixFrame_per_particle (n : ℕ) (velocities : Option (ℕ → Vec3 ℝ))
    (positions : ℕ → Vec3 ℝ) (rand : ℕ → ℝ) (c0 i : ℕ) (hi : i < n)
    (hr : ∀ k, 0 ≤ rand k ∧ rand k < 1) :
    ((positions i).y + matrixFall velocities i < -10 →
      ((matrixFrame n velocities positions rand c0).1 i).y = 15 ∧
      -10 ≤ ((matrixFrame n velocities positions rand c0).1 i).x ∧
      ((matrixFrame n velocities positions rand c0).1 i).x < 10 ∧
      -10 ≤ ((matrixFrame n velocities positions rand c0).1 i).z ∧
      ((matrixFrame n velocities positions rand c0).1 i).z < 10) ∧
    (¬ ((positions i).y + matrixFall velocities i < -10) →
      (matrixFrame n velocities positions rand c0).1 i =
        ⟨(positions i).x, (positions i).y + matrixFall velocities i,
          (positions i).z⟩) := by
  have hloc : ∀ s j k, k ≠ j →
      ((matrixStep velocities rand) s j).1 k = s.1 k := by
    intro s j k hk
    simp only [matrixStep]
    split <;> exact Function.update_noteq hk _ _
  obtain ⟨s', h1, h2⟩ := foldl_local_mem (matrixStep velocities rand)
    hloc (List.range n) (positions, c0) i (List.nodup_range n)
    (List.mem_range.2 hi)
  have h3 : (matrixFrame n velocities positions rand c0).1 i =
      (matrixStep velocities rand s' i).1 i := h2
  constructor
  · intro hc
    have h4 : (matrixStep velocities rand s' i).1 i =
        ⟨(rand s'.2 - 0.5) * 20, 15, (rand (s'.2 + 1) - 0.5) * 20⟩ := by
      simp only [matrixStep, h1, if_pos hc]
      exact Function.update_same i _ _
    rw [h3, h4]
    obtain ⟨ha0, ha1⟩ := hr s'.2
    obtain ⟨hb0, hb1⟩ := hr (s'.2 + 1)
    exact ⟨rfl, by dsimp; linarith, by dsimp; linarith, by dsimp; linarith,
      by dsimp; linarith⟩
  · intro hc
    have h4 : (matrixStep velocities rand s' i).1 i =
        ⟨(positions i).x, (positions i).y + matrixFall velocities i,
          (positions i).z⟩ := by
      simp only [matrixStep, h1, if_neg hc]
      exact Function.update_same i _ _
    rw [h3, h4]

/-- Witness for C5 with one particle, zero randomness and no velocity
attribute. -/
theorem matrixFrame_per_particle_witness :
    (0 < 1) ∧ (∀ _k : ℕ, 0 ≤ (0 : ℝ) ∧ (0 : ℝ) < 1) ∧
    (¬ (((fun _ : ℕ => (⟨0, 0, 0⟩ : Vec3 ℝ)) 0).y +
        matrixFall none 0 < -10) →
      (matrixFrame 1 none (fun _ => ⟨0, 0, 0⟩) (fun _ => 0) 0).1 0 =
        ⟨((fun _ : ℕ => (⟨0, 0, 0⟩ : Vec3 ℝ)) 0).x,
          ((fun _ : ℕ => (⟨0, 0, 0⟩ : Vec3 ℝ)) 0).y + matrixFall none 0,
          ((fun _ : ℕ => (⟨0, 0, 0⟩ : Vec3 ℝ)) 0).z⟩) :=
  ⟨by norm_num, fun _ => by norm_num,
    (matrixFrame_per_particle 1 none (fun _ => ⟨0, 0, 0⟩) (fun _ => 0) 0 0
      (by norm_num) (fun _ => by norm_num)).2⟩

/-- C6: in a storm frame, particle `i`'s position advances by its velocity;
when the updated position's distance from the origin exceeds 15 all three
velocity components are multiplied by `-0.8`; and the velocity additionally
receives a turbulence increment of magnitude at most `0.0005` per
component. -/
theorem stormFrame_per_particle (n : ℕ) (positions velocities : ℕ → Vec3 ℝ)
    (rand : ℕ → ℝ) (c0 i : ℕ) (hi : i < n)
    (hr : ∀ k, 0 ≤ rand k ∧ rand k < 1) :
    ∃ t : Vec3 ℝ, |t.x| ≤ 0.0005 ∧ |t.y| ≤ 0.0005 ∧ |t.z| ≤ 0.0005 ∧
      (stormFrame n positions velocities rand c0).1 i =
        (positions i + velocities i,
         (if 15 < vlen (positions i + velocities i) then
            (-0.8 : ℝ) • velocities i
          else velocities i) + t) := by
  have hloc : ∀ s j k, k ≠ j → ((stormStep rand) s j).1 k = s.1 k := by
    intro s j k hk
    simp only [stormStep]
    exact Function.update_noteq hk _ _
  obtain ⟨s', h1, h2⟩ := foldl_local_mem (stormStep rand) hloc (List.range n)
    ((fun j => (positions j, velocities j)), c0) i (List.nodup_range n)
    (List.mem_range.2 hi)
  refine ⟨⟨(rand s'.2 - 0.5) * 0.001, (rand (s'.2 + 1) - 0.5) * 0.001,
    (rand (s'.2 + 2) - 0.5) * 0.001⟩, ?_, ?_, ?_, ?_⟩
  · obtain ⟨ha, hb⟩ := hr s'.2
    rw [abs_le]
    constructor <;> (dsimp; linarith)
  · obtain ⟨ha, hb⟩ := hr (s'.2 + 1)
    rw [abs_le]
    constructor <;> (dsimp; linarith)
  · obtain ⟨ha, hb⟩ := hr (s'.2 + 2)
    rw [abs_le]
    constructor <;> (dsimp; linarith)
  · have h3 : (stormFrame n positions velocities rand c0).1 i =
        (stormStep rand s' i).1 i := h2
    rw [h3]
    simp only [stormStep, h1, Function.update_same]

/-- Witness for C6 with one particle at rest and zero randomness. -/
theorem stormFrame_per_particle_witness :
    (0 < 1) ∧
    ∃ t : Vec3 ℝ, |t.x| ≤ 0.0005 ∧ |t.y| ≤ 0.0005 ∧ |t.z| ≤ 0.0005 ∧
      (stormFrame 1 (fun _ => ⟨0, 0, 0⟩) (fun _ => ⟨0, 0, 0⟩)
          (fun _ => 0) 0).1 0 =
        ((fun _ : ℕ => (⟨0, 0, 0⟩ : Vec3 ℝ)) 0 +
            (fun _ : ℕ => (⟨0, 0, 0⟩ : Vec3 ℝ)) 0,
         (if 15 < vlen ((fun _ : ℕ => (⟨0, 0, 0⟩ : Vec3 ℝ)) 0 +
              (fun _ : ℕ => (⟨0, 0, 0⟩ : Vec3 ℝ)) 0) then
            (-0.8 : ℝ) • (fun _ : ℕ => (⟨0, 0, 0⟩ : Vec3 ℝ)) 0
          else (fun _ : ℕ => (⟨0, 0, 0⟩ : Vec3 ℝ)) 0) + t) :=
  ⟨by norm_num,
    stormFrame_per_particle 1 (fun _ => ⟨0, 0, 0⟩) (fun _ => ⟨0, 0, 0⟩)
      (fun _ => 0) 0 0 (by norm_num) (fun _ => by norm_num)⟩

/-- `addNode` always appends exactly one node (`connectNewNode` only adds
connections). -/
theorem addNode_nodes_length (st : RichState) (position : Vec3 ℝ)
    (rand : ℕ → ℝ) (c : ℕ) :
    (addNode st position rand c).nodes.length = st.nodes.length + 1 := by
  simp [addNode, connectNewNode]

/-- C1 is a code bug: with add-node mode active and a failed ray–plane
intersection (`intersectPlane` returned `null`), `onCanvasClick` still adds a
node.  `if (intersectPoint)` tests the always-truthy `Vector3` object instead
of the intersection result, so the untouched `(0, 0, 0)` target is clamped,
pushed out to radius 2.5 and handed to `addNode` — while the claim (and the
spec) say this case silently no-ops, leaving the arrays unchanged. -/
theorem onCanvasClick_failed_intersection_adds_node :
    (onCanvasClick baseState none (fun _ => 0) 0).nodes.length =
      baseState.nodes.length + 1 := by
  have hadd : baseState.addingNode = true := rfl
  unfold onCanvasClick
  rw [if_neg (by rw [hadd]; simp)]
  dsimp only
  split <;> exact addNode_nodes_length _ _ _ _

/-- C9 as stated is refuted by the key `"toString"`, which is not one of the
five preset keys: JS bracket lookup finds the truthy inherited
`Object.prototype.toString`, so `if (!preset) return` does not fire.
`currentViz` is overwritten with the key and the handler then aborts with an
uncaught `TypeError` — it does not return with the state unchanged. -/
theorem switchVisualization_inherited_key_counterexample :
    "toString" ∉ ["neural", "storm", "constellation", "swarm", "matrix"] ∧
    switchVisualization baseState "toString" (fun _ => 0) 0 =
      Except.error { baseState with currentViz := "toString" } ∧
    switchVisualization baseState "toString" (fun _ => 0) 0 ≠
      Except.ok baseState := by
  refine ⟨by decide, rfl, ?_⟩
  intro h
  rw [show switchVisualization baseState "toString" (fun _ => 0) 0 =
    Except.error { baseState with currentViz := "toString" } from rfl] at h
  exact Except.noConfusion h

/-- C9 (amended): `switchVisualization` with a key that is neither one of
the five `VIZ_PRESETS` keys nor the name of a member inherited from
`Object.prototype` — so that the bracket lookup really yields `undefined` —
returns at the `if (!preset) return` guard, leaving `currentViz`, `CONFIG`,
the nodes, connections, particle system, core, lights and every other
modelled global unchanged. -/
theorem switchVisualization_undefined_key_noop (st : RichState)
    (vizKey : String) (rand : ℕ → ℝ) (c0 : ℕ)
    (h1 : vizKey ∉ ["neural", "storm", "constellation", "swarm", "matrix"])
    (h2 : vizKey ∉ objectPrototypeNames) :
    switchVisualization st vizKey rand c0 = .ok st := by
  have hl : VIZ_PRESETS vizKey = .undefinedLookup := by
    unfold VIZ_PRESETS
    split <;> simp_all
  unfold switchVisualization
  rw [hl]

/-- Witness for C9: the key `"plasma"` is neither a preset key nor an
inherited member name, so switching to it from the base state changes
nothing. -/
theorem switchVisualization_undefined_key_noop_witness :
    ("plasma" ∉ ["neural", "storm", "constellation", "swarm", "matrix"]) ∧
    ("plasma" ∉ objectPrototypeNames) ∧
    switchVisualization baseState "plasma" (fun _ => 0) 0 = .ok baseState :=
  ⟨by decide, by decide,
    switchVisualization_undefined_key_noop baseState "plasma" (fun _ => 0) 0
      (by decide) (by decide)⟩

/-- Witness for C10 on a two-pulse state: `pulseA` finishes and `pulseB`
stays. -/
theorem animateDataPulses_removes_finished_witness :
    ([0, 1] : List ℕ).Nodup ∧ ([pulseA, pulseB].map Pulse.id).Nodup ∧
    ∀ p ∈ (animateDataPulses [0, 1] [pulseA, pulseB]).2, p.progress < 1 :=
  ⟨by decide, by decide,
    (animateDataPulses_removes_finished [0, 1] [pulseA, pulseB] (by decide)
      (by decide)).1⟩

end IceViz
